import Mathlib

/-!
Shallow embedding of the `zen` terminal text editor (src/zen.c) and proofs
about its specification.  Rows are lists of characters, the global
`struct editorConfig E` becomes an explicit `EditorConfig` record that is
threaded through every operation, the C `int` fields that stay non-negative
in every reachable state are `Nat`, and the find callback's statics
(`last_match`, `direction`, `saved_hl`) become an explicit `FindState`
record (`last_match` and `direction` keep the C type `int`, i.e. `Int`,
because `-1` is a meaningful value there).  File descriptors and the
prompt loop are replaced by explicit oracle arguments: the outcome of the
`open`/`ftruncate`/`write` sequence and the list of keys the user types.
-/

namespace Zen

/-- `ZEN_TAB_STOP` (zen.c line 25). -/
def ZEN_TAB_STOP : Nat := 4

/-- `ZEN_QUIT_TIMES` (zen.c line 26). -/
def ZEN_QUIT_TIMES : Nat := 3

/-- `CTRL_KEY(k) = k & 0x1f` (zen.c line 39). -/
def CTRL_KEY (k : Nat) : Nat := k &&& 0x1f

/-- The extended keycode set of `enum editorKey` (zen.c lines 41-53); keys are
C `int`s, modelled as `Nat` (printable bytes are their ASCII codes). -/
def BACKSPACE : Nat := 127
def ARROW_LEFT : Nat := 1000
def ARROW_RIGHT : Nat := 1001
def ARROW_UP : Nat := 1002
def ARROW_DOWN : Nat := 1003
def DEL_KEY : Nat := 1004
def HOME_KEY : Nat := 1005
def END_KEY : Nat := 1006
def PAGE_UP : Nat := 1007
def PAGE_DOWN : Nat := 1008

/-- `enum editorHighlight` (zen.c lines 55-60): `HL_NORMAL`, `HL_NUMBER`,
`HL_MATCH`. -/
inductive Hl where
  | normal
  | number
  | matchTag
deriving DecidableEq, Inhabited, BEq

/-- `HL_HIGHLIGHT_NUMBERS = 1 << 0` (zen.c line 62). -/
def HL_HIGHLIGHT_NUMBERS : Nat := 1

/-- `struct editorSyntax` (zen.c lines 67-72). -/
structure EditorSyntax where
  filetype : String
  filematch : List String
  flags : Nat
deriving DecidableEq, Inhabited

/-- The single entry of `HLDB` (zen.c lines 108-112). -/
def cSyntax : EditorSyntax :=
  { filetype := "c", filematch := [".c", ".h", ".cpp"], flags := HL_HIGHLIGHT_NUMBERS }

/-- `HLDB` (zen.c lines 108-112). -/
def HLDB : List EditorSyntax := [cSyntax]

/-- C `isdigit` for the byte range the editor handles. -/
def isdigitC (c : Char) : Bool := '0' ≤ c && c ≤ '9'

/-- C `isspace`: space, `\t`, `\n`, `\v`, `\f`, `\r`. -/
def isspaceC (c : Char) : Bool :=
  c = ' ' || c = '\t' || c = '\n' || c = Char.ofNat 11 || c = Char.ofNat 12 || c = '\r'

/-- C `iscntrl`: bytes 0-31 and 127. -/
def iscntrlC (c : Nat) : Bool := c < 32 || c = 127

/-- `is_separator` (zen.c lines 361-364): whitespace, the NUL byte, or one of
the sixteen punctuation characters of the `strchr` set (comma, dot, parens,
the four arithmetic operators, equals, tilde, percent, angle brackets,
square brackets, semicolon). -/
def is_separator (c : Char) : Bool :=
  isspaceC c || c = Char.ofNat 0 || (",.()+-/*=~%<>[];".toList.contains c)

/-- One iteration of the `editorRowCxToRx` loop (zen.c lines 461-473): a tab
advances `rx` by `(ZEN_TAB_STOP - 1) - (rx % ZEN_TAB_STOP)` before the
unconditional `rx++`. -/
def cxToRxStep (rx : Nat) (c : Char) : Nat :=
  if c = '\t' then rx + ((ZEN_TAB_STOP - 1) - rx % ZEN_TAB_STOP) + 1 else rx + 1

/-- The loop of `editorRowCxToRx` with the running `rx` made explicit. -/
def cxToRxGo : List Char → Nat → Nat → Nat
  | _, 0, rx => rx
  | [], _ + 1, rx => rx
  | c :: rest, j + 1, rx => cxToRxGo rest j (cxToRxStep rx c)

/-- `editorRowCxToRx` (zen.c lines 456-476), on the row's `chars`. -/
def editorRowCxToRx (chars : List Char) (cx : Nat) : Nat :=
  cxToRxGo chars cx 0

/-- The loop of `editorRowRxToCx` (zen.c lines 482-489): walk the characters
accumulating `cur_rx`; return the current `cx` as soon as `cur_rx > rx`. -/
def rxToCxGo : List Char → Nat → Nat → Nat → Nat
  | [], _, _, cx => cx
  | c :: rest, rx, cur_rx, cx =>
    let cur := cxToRxStep cur_rx c
    if rx < cur then cx else rxToCxGo rest rx cur (cx + 1)

/-- `editorRowRxToCx` (zen.c lines 478-491): returns `row->size` when the loop
runs off the end of the row. -/
def editorRowRxToCx (chars : List Char) (rx : Nat) : Nat :=
  rxToCxGo chars rx 0 0

/-- The render-building loop of `editorUpdateRow` (zen.c lines 512-526): a tab
emits one space and then pads with spaces until the index is a multiple of
`ZEN_TAB_STOP`; every other character is copied verbatim. -/
def renderChars (chars : List Char) : List Char :=
  chars.foldl
    (fun acc c =>
      if c = '\t' then acc ++ List.replicate (ZEN_TAB_STOP - acc.length % ZEN_TAB_STOP) ' '
      else acc ++ [c])
    []

/-- The scanning loop of `editorUpdateSyntax` (zen.c lines 377-401).  The
`memset` to `HL_NORMAL` plus the selective overwrite with `HL_NUMBER` is
expressed by emitting the tag of each byte directly: a byte is `HL_NUMBER`
iff the `HL_HIGHLIGHT_NUMBERS` flag is on and
`(isdigit(c) && (prev_sep || prev_hl == HL_NUMBER)) || (c == '.' && prev_hl == HL_NUMBER)`;
the tagged branch sets `prev_sep = 0` and `continue`s, the untagged branch
sets `prev_sep = is_separator(c)`. -/
def hlGo (flag : Bool) : List Char → Bool → Hl → List Hl
  | [], _, _ => []
  | c :: rest, prevSep, prevHl =>
    if flag && ((isdigitC c && (prevSep || prevHl == Hl.number)) || (c == '.' && prevHl == Hl.number)) then
      Hl.number :: hlGo flag rest false Hl.number
    else
      Hl.normal :: hlGo flag rest (is_separator c) Hl.normal

/-- `editorUpdateSyntax` (zen.c lines 366-402) as a function from the active
syntax rule and the row's `render` to the row's `hl`: with `E.syntax == NULL`
everything stays at the `memset` value `HL_NORMAL`; otherwise the scanning
loop runs with `prev_sep = 1` and position 0 treated as having a `HL_NORMAL`
predecessor. -/
def editorUpdateSyntax (syn : Option EditorSyntax) (render : List Char) : List Hl :=
  match syn with
  | none => List.replicate render.length Hl.normal
  | some s => hlGo (s.flags &&& HL_HIGHLIGHT_NUMBERS ≠ 0) render true Hl.normal

/-- `typedef struct erow` (zen.c lines 75-82).  `size` and `rsize` are the
lengths of the `chars` and `render` lists; `hl` is stored separately because
the find callback mutates it without re-deriving it. -/
structure Erow where
  chars : List Char
  render : List Char
  hl : List Hl
deriving DecidableEq, Inhabited

/-- `row->size`. -/
def Erow.size (r : Erow) : Nat := r.chars.length

/-- `row->rsize`. -/
def Erow.rsize (r : Erow) : Nat := r.render.length

/-- `struct editorConfig` (zen.c lines 84-100) without the fields that only
concern the physical terminal (`statusmsg_time`, `orig_termios`); `numrows`
is the length of `row`, and `dirty` counts mutations like the C `int` it
models. -/
structure EditorConfig where
  cx : Nat
  cy : Nat
  rx : Nat
  rowoff : Nat
  coloff : Nat
  row : List Erow
  dirty : Nat
  screenrows : Nat
  screencols : Nat
  filename : Option String
  statusmsg : String
  syn : Option EditorSyntax
deriving DecidableEq, Inhabited

/-- `E.numrows`. -/
def EditorConfig.numrows (E : EditorConfig) : Nat := E.row.length

/-- `editorSetStatusMessage` (zen.c lines 1128-1142) with the message already
formatted; `vsnprintf` into the 80-byte `E.statusmsg` truncates to 79
characters, modelled by truncating the character list (`statusmsg_time` is
wall-clock display state and is not modelled). -/
def editorSetStatusMessage (E : EditorConfig) (msg : String) : EditorConfig :=
  { E with statusmsg := String.mk (msg.data.take 79) }

/-- `editorUpdateRow` (zen.c lines 495-531): rebuild `render` from `chars`
with the tab-expansion rule and re-derive `hl` via `editorUpdateSyntax`. -/
def editorUpdateRow (syn : Option EditorSyntax) (row : Erow) : Erow :=
  let render := renderChars row.chars
  { chars := row.chars, render := render, hl := editorUpdateSyntax syn render }

/-- `editorInsertRow` (zen.c lines 534-553): out-of-range `at` is a no-op;
otherwise insert a freshly rendered row and bump `dirty`. -/
def editorInsertRow (E : EditorConfig) (at_ : Nat) (s : List Char) : EditorConfig :=
  if at_ > E.numrows then E
  else
    { E with
      row := E.row.insertIdx at_ (editorUpdateRow E.syn { chars := s, render := [], hl := [] })
      dirty := E.dirty + 1 }

/-- `editorDelRow` (zen.c lines 562-572): out-of-range `at` is a no-op;
otherwise remove the row and bump `dirty`. -/
def editorDelRow (E : EditorConfig) (at_ : Nat) : EditorConfig :=
  if at_ ≥ E.numrows then E
  else { E with row := E.row.eraseIdx at_, dirty := E.dirty + 1 }

/-- Apply `f` to row number `i` of the editor (the C code mutates
`E.row[i]` in place through a pointer). -/
def EditorConfig.modifyRow (E : EditorConfig) (i : Nat) (f : Erow → Erow) : EditorConfig :=
  { E with row := E.row.set i (f (E.row.getD i default)) }

/-- `editorRowAppendString` (zen.c lines 578-590) on row `i`: append the
characters, re-render, bump `dirty`. -/
def editorRowAppendString (E : EditorConfig) (i : Nat) (s : List Char) : EditorConfig :=
  let E := E.modifyRow i (fun row => editorUpdateRow E.syn { row with chars := row.chars ++ s })
  { E with dirty := E.dirty + 1 }

/-- `editorRowInsertChar` (zen.c lines 592-606) on row `i`: an out-of-range
`at` is clamped to `row->size`, the character is inserted, the row
re-rendered, and `dirty` bumped. -/
def editorRowInsertChar (E : EditorConfig) (i : Nat) (at_ : Nat) (c : Char) : EditorConfig :=
  let E := E.modifyRow i (fun row =>
    let at_ := if at_ > row.size then row.size else at_
    editorUpdateRow E.syn { row with chars := row.chars.insertIdx at_ c })
  { E with dirty := E.dirty + 1 }

/-- `editorRowDelChar` (zen.c lines 608-620) on row `i`: out-of-range `at` is
a no-op; otherwise delete the character, re-render, bump `dirty`. -/
def editorRowDelChar (E : EditorConfig) (i : Nat) (at_ : Nat) : EditorConfig :=
  if at_ ≥ (E.row.getD i default).size then E
  else
    let E := E.modifyRow i (fun row => editorUpdateRow E.syn { row with chars := row.chars.eraseIdx at_ })
    { E with dirty := E.dirty + 1 }

/-- `editorInsertChar` (zen.c lines 624-632): on the virtual line past the
end, append an empty row first; then insert at the cursor and advance `cx`. -/
def editorInsertChar (E : EditorConfig) (c : Char) : EditorConfig :=
  let E := if E.cy = E.numrows then editorInsertRow E E.numrows [] else E
  let E := editorRowInsertChar E E.cy E.cx c
  { E with cx := E.cx + 1 }

/-- `editorInsertNewline` (zen.c lines 634-657): at column 0 insert an empty
row before the current one; otherwise move the tail of the current row into a
new row below and truncate the current row at the cursor.  Finally `cy++`,
`cx = 0`. -/
def editorInsertNewline (E : EditorConfig) : EditorConfig :=
  let E :=
    if E.cx = 0 then editorInsertRow E E.cy []
    else
      let row := E.row.getD E.cy default
      let E := editorInsertRow E (E.cy + 1) (row.chars.drop E.cx)
      E.modifyRow E.cy (fun row => editorUpdateRow E.syn { row with chars := row.chars.take E.cx })
  { E with cy := E.cy + 1, cx := 0 }

/-- `editorDelChar` (zen.c lines 659-681): no-op on the virtual line or at
the very start of the buffer; inside a row delete the character left of the
cursor; at column 0 merge the current row into the previous one. -/
def editorDelChar (E : EditorConfig) : EditorConfig :=
  if E.cy = E.numrows then E
  else if E.cx = 0 ∧ E.cy = 0 then E
  else
    let row := E.row.getD E.cy default
    if E.cx > 0 then
      let E := editorRowDelChar E E.cy (E.cx - 1)
      { E with cx := E.cx - 1 }
    else
      let E := { E with cx := (E.row.getD (E.cy - 1) default).size }
      let E := editorRowAppendString E (E.cy - 1) row.chars
      let E := editorDelRow E E.cy
      { E with cy := E.cy - 1 }

/-- `editorRowsToString` (zen.c lines 686-708): every row's `chars` followed
by one newline, including after the last row. -/
def editorRowsToString (rows : List Erow) : List Char :=
  rows.foldr (fun r acc => r.chars ++ '\n' :: acc) []

/-- `strrchr(filename, c)` as the suffix starting at the last occurrence of
`c`, or `NULL` when `c` does not occur. -/
def strrchrSuffix (s : List Char) (c : Char) : Option (List Char) :=
  match s with
  | [] => none
  | a :: rest =>
    match strrchrSuffix rest c with
    | some suf => some suf
    | none => if a = c then some (a :: rest) else none

/-- First index at which `needle` occurs as a contiguous sublist of `hay`
(`strstr` returning the offset of the match instead of a pointer); `none`
when there is no occurrence.  The empty needle matches at offset 0, exactly
as `strstr` returns the haystack itself. -/
def strstrIdx (hay : List Char) (needle : List Char) : Option Nat :=
  if needle.isPrefixOf hay then some 0
  else
    match hay with
    | [] => none
    | _ :: t => (strstrIdx t needle).map (· + 1)

/-- `editorSelectSyntaxHighlight` (zen.c lines 418-451): clear `E.syntax`,
then scan `HLDB`; a pattern starting with a dot must equal the filename's
extension (`strrchr(filename, '.')` suffix), any other pattern must be a
substring of the filename.  On the first hit, install the rule and re-derive
`hl` for every row; with no filename or no hit, the rule stays cleared and
the rows keep their previous `hl`. -/
def editorSelectSyntaxHighlight (E : EditorConfig) : EditorConfig :=
  let E := { E with syn := none }
  match E.filename with
  | none => E
  | some fn =>
    let ext := strrchrSuffix fn.toList '.'
    match HLDB.find? (fun s =>
      s.filematch.any (fun pat =>
        if pat.toList.headD ' ' = '.' then
          match ext with
          | some e => e = pat.toList
          | none => false
        else (strstrIdx fn.toList pat.toList).isSome)) with
    | none => E
    | some s =>
      let E := { E with syn := some s }
      { E with row := E.row.map (fun r => { r with hl := editorUpdateSyntax (some s) r.render }) }

/-- `editorOpen` (zen.c lines 711-744): set the filename, select the syntax
rule, and insert one row per line of the file with trailing newline and
carriage-return bytes stripped; finally clear `dirty`.  The file is given
already split into `getline` chunks. -/
def stripTrailingNl (l : List Char) : List Char :=
  (l.reverse.dropWhile (fun c => c = '\n' || c = '\r')).reverse

/-- `editorOpen` proper (zen.c lines 711-744). -/
def editorOpen (E : EditorConfig) (filename : String) (contents : List (List Char)) : EditorConfig :=
  let E := editorSelectSyntaxHighlight { E with filename := some filename }
  let E := contents.foldl (fun e line => editorInsertRow e e.numrows (stripTrailingNl line)) E
  { E with dirty := 0 }

/-- The statics of `editorFindCallback` (zen.c lines 793-797): `last_match`
and `direction` are C `int`s (`-1` is meaningful), and `saved_hl_line` with
`saved_hl` collapse to an optional pair (in C, `saved_hl == NULL` marks the
absent state). -/
structure FindState where
  last_match : Int
  direction : Int
  saved : Option (Nat × List Hl)
deriving DecidableEq, Inhabited

/-- The `FindState` at program start. -/
def initialFindState : FindState := { last_match := -1, direction := 1, saved := none }

/-- `memset(&row->hl[off], HL_MATCH, n)` (zen.c line 863); every call site
has `off + n ≤ hl.length` because the query was found at offset `off` of the
equally long `render`. -/
def paintMatch (hl : List Hl) (off n : Nat) : List Hl :=
  hl.take off ++ List.replicate n Hl.matchTag ++ hl.drop (off + n)

/-- The search loop of `editorFindCallback` (zen.c lines 831-866): at most
`numrows` steps; each step advances `current` by `direction`, wraps `-1` to
`numrows - 1` and `numrows` to `0`, and stops at the first row whose
`render` contains the query, recording the hit, moving the cursor, setting
`rowoff = numrows`, snapshotting the row's `hl` and painting the match. -/
def findLoop (E : EditorConfig) (fs : FindState) (query : List Char) :
    Nat → Int → Int → EditorConfig × FindState
  | 0, _, _ => (E, fs)
  | fuel + 1, current, direction =>
    let current := current + direction
    let current : Int :=
      if current = -1 then (E.numrows : Int) - 1
      else if current = (E.numrows : Int) then 0
      else current
    let idx := current.toNat
    let row := E.row.getD idx default
    match strstrIdx row.render query with
    | some off =>
      let fs := { fs with last_match := current, saved := some (idx, row.hl) }
      let E := { E with cy := idx, cx := editorRowRxToCx row.chars off, rowoff := E.numrows }
      let E := E.modifyRow idx (fun r => { r with hl := paintMatch r.hl off query.length })
      (E, fs)
    | none => findLoop E fs query fuel current direction

/-- `editorFindCallback` (zen.c lines 787-867): restore any previously
painted row, then on Enter or ESC reset the statics and return; otherwise
set the direction from the arrow keys (any other key restarts a forward
search), force `direction = 1` when there is no last match, and run the
search loop. -/
def editorFindCallback (E : EditorConfig) (fs : FindState) (query : List Char) (key : Nat) :
    EditorConfig × FindState :=
  let E :=
    match fs.saved with
    | some (line, hl) => E.modifyRow line (fun r => { r with hl := hl })
    | none => E
  let fs := { fs with saved := none }
  if key = 13 ∨ key = 27 then
    (E, { fs with last_match := -1, direction := 1 })
  else
    let fs :=
      if key = ARROW_RIGHT ∨ key = ARROW_DOWN then { fs with direction := 1 }
      else if key = ARROW_LEFT ∨ key = ARROW_UP then { fs with direction := -1 }
      else { fs with last_match := -1, direction := 1 }
    let fs := if fs.last_match = -1 then { fs with direction := 1 } else fs
    findLoop E fs query E.numrows fs.last_match fs.direction

/-- `editorScroll` (zen.c lines 923-953): derive `rx` from the cursor, then
clamp `rowoff` and `coloff` so the cursor is inside the visible window. -/
def editorScroll (E : EditorConfig) : EditorConfig :=
  let rx := if E.cy < E.numrows then editorRowCxToRx (E.row.getD E.cy default).chars E.cx else 0
  let E := { E with rx := rx }
  let E := if E.cy < E.rowoff then { E with rowoff := E.cy } else E
  let E := if E.cy ≥ E.rowoff + E.screenrows then { E with rowoff := E.cy - E.screenrows + 1 } else E
  let E := if E.rx < E.coloff then { E with coloff := E.rx } else E
  let E := if E.rx ≥ E.coloff + E.screencols then { E with coloff := E.rx - E.screencols + 1 } else E
  E

/-- How a run of `editorPrompt` ends: the user committed a non-empty buffer
with Enter, cancelled with ESC, or the supplied key script ran out while the
modal loop was still waiting for input. -/
inductive PromptEnd where
  | committed (buf : List Char)
  | cancelled
  | pending (buf : List Char)
deriving DecidableEq

/-- `editorPrompt` (zen.c lines 1147-1201) driven by an explicit list of
already-decoded keys.  The `%s` format slot is modelled by the `pre`/`suf`
pair around the buffer.  Each iteration sets the status message and runs
`editorRefreshScreen`, whose only editor-state effect is `editorScroll`
(drawing just emits terminal bytes).  DEL, Ctrl-H and BACKSPACE drop the
last byte; ESC cancels (after one callback call); Enter with a non-empty
buffer commits (after one callback call); any other non-control byte below
128 is appended; every path that falls to the end of the loop body invokes
the callback with the current buffer and key. -/
def editorPrompt (pre suf : String)
    (cb : Option (EditorConfig → FindState → List Char → Nat → EditorConfig × FindState)) :
    EditorConfig → FindState → List Char → List Nat → EditorConfig × FindState × PromptEnd
  | E, fs, buf, [] => (E, fs, PromptEnd.pending buf)
  | E, fs, buf, k :: keys =>
    let E := editorScroll (editorSetStatusMessage E (pre ++ String.mk buf ++ suf))
    let call := fun (E : EditorConfig) (fs : FindState) (buf : List Char) =>
      match cb with
      | none => (E, fs)
      | some f => f E fs buf k
    if k = DEL_KEY ∨ k = CTRL_KEY 104 ∨ k = BACKSPACE then
      let buf := if buf ≠ [] then buf.dropLast else buf
      let (E, fs) := call E fs buf
      editorPrompt pre suf cb E fs buf keys
    else if k = 27 then
      let E := editorSetStatusMessage E ""
      let (E, fs) := call E fs buf
      (E, fs, PromptEnd.cancelled)
    else if k = 13 then
      if buf ≠ [] then
        let E := editorSetStatusMessage E ""
        let (E, fs) := call E fs buf
        (E, fs, PromptEnd.committed buf)
      else
        let (E, fs) := call E fs buf
        editorPrompt pre suf cb E fs buf keys
    else if !iscntrlC k && k < 128 then
      let buf := buf ++ [Char.ofNat k]
      let (E, fs) := call E fs buf
      editorPrompt pre suf cb E fs buf keys
    else
      let (E, fs) := call E fs buf
      editorPrompt pre suf cb E fs buf keys

/-- `editorFind` (zen.c lines 869-888): save the viewport, run the prompt
with the find callback, and restore the viewport if the user cancelled.
A script that runs out mid-prompt leaves the editor inside the modal loop,
so the state reached so far is returned unchanged. -/
def editorFind (E : EditorConfig) (fs : FindState) (keys : List Nat) :
    EditorConfig × FindState :=
  let saved_cx := E.cx
  let saved_cy := E.cy
  let saved_coloff := E.coloff
  let saved_rowoff := E.rowoff
  let r := editorPrompt "Search: " " (Use ESC/Arrows/Enter)" (some editorFindCallback) E fs [] keys
  match r with
  | (E, fs, PromptEnd.cancelled) =>
    ({ E with cx := saved_cx, cy := saved_cy, coloff := saved_coloff, rowoff := saved_rowoff }, fs)
  | (E, fs, _) => (E, fs)

/-- The outcome of the `open`/`ftruncate`/`write` sequence of `editorSave`
(zen.c lines 764-780); the three failure points carry the `strerror(errno)`
text and all lead to the same user-visible report. -/
inductive SaveFsOutcome where
  | openFail (err : String)
  | truncFail (err : String)
  | writeFail (err : String)
  | ok
deriving DecidableEq

/-- The part of `editorSave` after a filename is available (zen.c lines
760-782): serialize the rows, and on a fully successful write clear `dirty`
and report the byte count; on any failure leave the editor untouched apart
from the error message.  The second component is the file content written
on full success. -/
def saveToDisk (E : EditorConfig) (fs : FindState) (fsr : SaveFsOutcome) :
    (EditorConfig × FindState) × Option (List Char) :=
  let buf := editorRowsToString E.row
  let len := buf.length
  match fsr with
  | SaveFsOutcome.ok =>
    ((editorSetStatusMessage { E with dirty := 0 } (toString len ++ " bytes written to disk"), fs),
      some buf)
  | SaveFsOutcome.openFail err =>
    ((editorSetStatusMessage E ("Can't save! I/O error: " ++ err), fs), none)
  | SaveFsOutcome.truncFail err =>
    ((editorSetStatusMessage E ("Can't save! I/O error: " ++ err), fs), none)
  | SaveFsOutcome.writeFail err =>
    ((editorSetStatusMessage E ("Can't save! I/O error: " ++ err), fs), none)

/-- `editorSave` (zen.c lines 746-783): with no filename, run the save-as
prompt (no callback); cancelling reports `"Save aborted"` and changes
nothing else, committing installs the filename and re-selects the syntax
rule before writing. -/
def editorSave (E : EditorConfig) (fs : FindState) (promptKeys : List Nat)
    (fsr : SaveFsOutcome) : (EditorConfig × FindState) × Option (List Char) :=
  match E.filename with
  | some _ => saveToDisk E fs fsr
  | none =>
    let r := editorPrompt "Save as: " " (ESC to cancel)" none E fs [] promptKeys
    match r with
    | (E, fs, PromptEnd.cancelled) => ((editorSetStatusMessage E "Save aborted", fs), none)
    | (E, fs, PromptEnd.pending _) => ((E, fs), none)
    | (E, fs, PromptEnd.committed fn) =>
      let E := editorSelectSyntaxHighlight { E with filename := some (String.mk fn) }
      saveToDisk E fs fsr

/-- `editorMoveCursor` (zen.c lines 1203-1253): arrow-key cursor movement
with line wrapping on LEFT at column 0 and RIGHT at end of line, followed by
the snap of `cx` to the length of the landing row. -/
def editorMoveCursor (E : EditorConfig) (key : Nat) : EditorConfig :=
  let row := E.row.get? E.cy
  let E :=
    if key = ARROW_LEFT then
      if E.cx ≠ 0 then { E with cx := E.cx - 1 }
      else if E.cy > 0 then
        { E with cy := E.cy - 1, cx := (E.row.getD (E.cy - 1) default).size }
      else E
    else if key = ARROW_RIGHT then
      match row with
      | some r =>
        if E.cx < r.size then { E with cx := E.cx + 1 }
        else if E.cx = r.size then { E with cy := E.cy + 1, cx := 0 }
        else E
      | none => E
    else if key = ARROW_UP then
      if E.cy ≠ 0 then { E with cy := E.cy - 1 } else E
    else if key = ARROW_DOWN then
      if E.cy < E.numrows then { E with cy := E.cy + 1 } else E
    else E
  let rowlen := ((E.row.get? E.cy).map Erow.size).getD 0
  if E.cx > rowlen then { E with cx := rowlen } else E

/-- What one dispatched keypress produces: the next editor state together
with the find statics and the static `quit_times` counter, or a clean
`exit(code)`. -/
inductive KeyResult where
  | cont (E : EditorConfig) (fs : FindState) (quit_times : Nat)
  | exited (code : Nat)
deriving DecidableEq

/-- The environment a keypress may consume: the keys typed into a save-as
prompt, the filesystem outcome of a save, and the keys typed into a find
session. -/
structure Oracles where
  savePromptKeys : List Nat
  saveFs : SaveFsOutcome
  findKeys : List Nat
deriving DecidableEq

/-- The warning `editorProcessKeypress` formats on a dirty quit attempt
(zen.c lines 1271-1273). -/
def quitWarning (n : Nat) : String :=
  "WARNING!!! File has unsaved changes. Press Ctrl-Q " ++ toString n ++ " more times to quit."

/-- `editorProcessKeypress` (zen.c lines 1256-1344) on an already-decoded
key `c`.  The `static int quit_times = ZEN_QUIT_TIMES` is threaded
explicitly; note that no dispatch path writes it back to
`ZEN_QUIT_TIMES` — the only assignment in the source is the decrement in
the Ctrl-Q branch.  `CTRL_KEY` codes: Ctrl-Q = 17, Ctrl-S = 19, Ctrl-F = 6,
Ctrl-H = 8, Ctrl-L = 12.  In the PAGE_DOWN arithmetic the C `int`
expression `E.rowoff + E.screenrows - 1` is computed in `Nat`; they agree
whenever `rowoff + screenrows ≥ 1`, which holds for any physical window
(the C code would index rows at `-1` otherwise). -/
def editorProcessKeypress (E : EditorConfig) (fs : FindState) (quit_times : Nat)
    (c : Nat) (o : Oracles) : KeyResult :=
  if c = 13 then KeyResult.cont (editorInsertNewline E) fs quit_times
  else if c = CTRL_KEY 113 then
    if E.dirty ≠ 0 ∧ quit_times > 0 then
      KeyResult.cont (editorSetStatusMessage E (quitWarning quit_times)) fs (quit_times - 1)
    else KeyResult.exited 0
  else if c = CTRL_KEY 115 then
    let r := editorSave E fs o.savePromptKeys o.saveFs
    KeyResult.cont r.1.1 r.1.2 quit_times
  else if c = HOME_KEY then KeyResult.cont { E with cx := 0 } fs quit_times
  else if c = END_KEY then
    KeyResult.cont
      (if E.cy < E.numrows then { E with cx := (E.row.getD E.cy default).size } else E)
      fs quit_times
  else if c = CTRL_KEY 102 then
    let r := editorFind E fs o.findKeys
    KeyResult.cont r.1 r.2 quit_times
  else if c = BACKSPACE ∨ c = CTRL_KEY 104 ∨ c = DEL_KEY then
    let E := if c = DEL_KEY then editorMoveCursor E ARROW_RIGHT else E
    KeyResult.cont (editorDelChar E) fs quit_times
  else if c = PAGE_UP ∨ c = PAGE_DOWN then
    let E :=
      if c = PAGE_UP then { E with cy := E.rowoff }
      else
        let cy := E.rowoff + E.screenrows - 1
        { E with cy := if cy > E.numrows then E.numrows else cy }
    let E := (List.range E.screenrows).foldl
      (fun e _ => editorMoveCursor e (if c = PAGE_UP then ARROW_UP else ARROW_DOWN)) E
    KeyResult.cont E fs quit_times
  else if c = ARROW_UP ∨ c = ARROW_DOWN ∨ c = ARROW_LEFT ∨ c = ARROW_RIGHT then
    KeyResult.cont (editorMoveCursor E c) fs quit_times
  else if c = CTRL_KEY 108 ∨ c = 27 then KeyResult.cont E fs quit_times
  else KeyResult.cont (editorInsertChar E (Char.ofNat c)) fs quit_times

/-- `initEditor` (zen.c lines 1348-1367) given the physical window size:
everything zeroed, no rows, no filename, no syntax rule, and the text area
two rows shorter than the window. -/
def initEditor (windowRows windowCols : Nat) : EditorConfig :=
  { cx := 0, cy := 0, rx := 0, rowoff := 0, coloff := 0, row := [], dirty := 0,
    screenrows := windowRows - 2, screencols := windowCols,
    filename := none, statusmsg := "", syn := none }

/-- `editorReadKey` (zen.c lines 212-297) after the first byte `c` has
arrived.  The subsequent single-byte reads are modelled by a list of
`Option Char`: `some b` is a byte, `none` is a `read` timeout, and an
exhausted list is also a timeout (no byte pending).  The result is the C
`int` the function returns. -/
def editorReadKey (c : Char) (pending : List (Option Char)) : Nat :=
  if c = Char.ofNat 27 then
    match pending with
    | [] => 27
    | none :: _ => 27
    | some s0 :: rest =>
      match rest with
      | [] => 27
      | none :: _ => 27
      | some s1 :: rest2 =>
        if s0 = '[' then
          if '0' ≤ s1 ∧ s1 ≤ '9' then
            match rest2 with
            | [] => 27
            | none :: _ => 27
            | some s2 :: _ =>
              if s2 = '~' then
                if s1 = '1' then HOME_KEY
                else if s1 = '3' then DEL_KEY
                else if s1 = '4' then END_KEY
                else if s1 = '5' then PAGE_UP
                else if s1 = '6' then PAGE_DOWN
                else if s1 = '7' then HOME_KEY
                else if s1 = '8' then END_KEY
                else 27
              else 27
          else
            if s1 = 'A' then ARROW_UP
            else if s1 = 'B' then ARROW_DOWN
            else if s1 = 'C' then ARROW_RIGHT
            else if s1 = 'D' then ARROW_LEFT
            else if s1 = 'H' then HOME_KEY
            else if s1 = 'F' then END_KEY
            else 27
        else if s0 = 'O' then
          if s1 = 'H' then HOME_KEY
          else if s1 = 'F' then END_KEY
          else 27
        else 27
  else c.toNat

/-- The quit-times component of a dispatch result, when the editor
continued. -/
def KeyResult.quitTimesOf : KeyResult → Option Nat
  | KeyResult.cont _ _ q => some q
  | KeyResult.exited _ => none

/-- Whether a dispatch result is a program exit. -/
def KeyResult.isExited : KeyResult → Bool
  | KeyResult.cont _ _ _ => false
  | KeyResult.exited _ => true

/-- The editor state of a dispatch result, when the editor continued. -/
def KeyResult.stateOf : KeyResult → Option EditorConfig
  | KeyResult.cont E _ _ => some E
  | KeyResult.exited _ => none

/-- The number-highlighting walk exactly as the claim words it (second,
spec-side definition, to be compared with the source-derived
`editorUpdateSyntax`): walk the render left to right; `prev_sep` tells
whether the previous character was a separator (initially true) and
`prevHl` is the previous byte's highlight (NORMAL at position 0); tag
NUMBER exactly when the claimed condition holds and NORMAL otherwise. -/
def specNumberWalk : List Char → Bool → Hl → List Hl
  | [], _, _ => []
  | c :: rest, prevSep, prevHl =>
    let h : Hl :=
      if (isdigitC c && (prevSep || prevHl == Hl.number)) || (c == '.' && prevHl == Hl.number)
      then Hl.number else Hl.normal
    h :: specNumberWalk rest (is_separator c) h

/-- The claim's description of number highlighting on a whole render. -/
def specNumberHl (render : List Char) : List Hl :=
  specNumberWalk render true Hl.normal

/-- Every highlight entry of every row is `HL_NORMAL`. -/
def allNormalHl (E : EditorConfig) : Prop :=
  ∀ r ∈ E.row, ∀ h ∈ r.hl, h = Hl.normal

/-- An editor as `initEditor` leaves it on a 26 x 80 terminal. -/
def demoEmpty : EditorConfig := initEditor 26 80

/-- `demoEmpty` after typing `abc` (three `editorInsertChar` dispatches). -/
def demoTypedAbc : EditorConfig :=
  editorInsertChar (editorInsertChar (editorInsertChar demoEmpty 'a') 'b') 'c'

/-- Saving `demoTypedAbc` with the save-as prompt answered `f` + Enter and a
fully successful filesystem. -/
def demoSavedAbc : (EditorConfig × FindState) × Option (List Char) :=
  editorSave demoTypedAbc initialFindState [102, 13] SaveFsOutcome.ok

/-- An editor that opened a file whose rows render as
`["foo", "bar", "foobar"]` (the extension `.txt` matches no syntax rule). -/
def demoFindFile : EditorConfig :=
  editorOpen demoEmpty "t.txt"
    [['f', 'o', 'o'], ['b', 'a', 'r'], ['f', 'o', 'o', 'b', 'a', 'r']]

/-- An oracle for keypresses that consult no environment. -/
def oracleEmpty : Oracles :=
  { savePromptKeys := [], saveFs := SaveFsOutcome.ok, findKeys := [] }

/-- `demoTypedAbc` after the first Ctrl-Q warning (quit counter now 2). -/
def demoAfterOneQuit : EditorConfig :=
  editorSetStatusMessage demoTypedAbc (quitWarning 3)

/-- An editor that opened a file with the single row `foo` (no syntax rule
matches `.txt`). -/
def demoFindOneRow : EditorConfig := editorOpen demoEmpty "t.txt" [['f', 'o', 'o']]

/-- `demoTypedAbc` with the filename already set (as after a committed
save-as prompt). -/
def demoAbcNamed : EditorConfig := { demoTypedAbc with filename := some "f" }

/-- A row whose render equals its chars and whose highlights are all
NORMAL — the shape `editorUpdateRow` gives any tab-free row with no active
syntax rule. -/
def nRow (s : List Char) : Erow :=
  { chars := s, render := s, hl := List.replicate s.length Hl.normal }

/-- The editor state of the `demoFindFile` find session after the first
prompt iteration (key `f`): query `f` matched row 0 at offset 0, whose `hl`
is painted with one MATCH; the callback set `rowoff = numrows = 3`. -/
def findE1 : EditorConfig :=
  { cx := 0, cy := 0, rx := 0, rowoff := 3, coloff := 0,
    row := [{ chars := ['f', 'o', 'o'], render := ['f', 'o', 'o'],
              hl := [Hl.matchTag, Hl.normal, Hl.normal] },
            nRow ['b', 'a', 'r'], nRow ['f', 'o', 'o', 'b', 'a', 'r']],
    dirty := 0, screenrows := 24, screencols := 80, filename := some "t.txt",
    statusmsg := "Search:  (Use ESC/Arrows/Enter)", syn := none }

/-- The session state after typing `fo`: two MATCH bytes on row 0. -/
def findE2 : EditorConfig :=
  { findE1 with
    row := [{ chars := ['f', 'o', 'o'], render := ['f', 'o', 'o'],
              hl := [Hl.matchTag, Hl.matchTag, Hl.normal] },
            nRow ['b', 'a', 'r'], nRow ['f', 'o', 'o', 'b', 'a', 'r']],
    statusmsg := "Search: f (Use ESC/Arrows/Enter)" }

/-- The session state after typing `foo`: row 0 fully painted. -/
def findE3 : EditorConfig :=
  { findE1 with
    row := [{ chars := ['f', 'o', 'o'], render := ['f', 'o', 'o'],
              hl := [Hl.matchTag, Hl.matchTag, Hl.matchTag] },
            nRow ['b', 'a', 'r'], nRow ['f', 'o', 'o', 'b', 'a', 'r']],
    statusmsg := "Search: fo (Use ESC/Arrows/Enter)" }

/-- The session state after ARROW_DOWN: the search wrapped forward from the
last match on row 0, skipped `bar`, and hit `foobar` on row 2 — cursor on
row 2, the first three bytes of row 2 painted MATCH, row 0 restored. -/
def findE4 : EditorConfig :=
  { findE1 with
    cy := 2,
    row := [nRow ['f', 'o', 'o'], nRow ['b', 'a', 'r'],
            { chars := ['f', 'o', 'o', 'b', 'a', 'r'], render := ['f', 'o', 'o', 'b', 'a', 'r'],
              hl := [Hl.matchTag, Hl.matchTag, Hl.matchTag, Hl.normal, Hl.normal, Hl.normal] }],
    statusmsg := "Search: foo (Use ESC/Arrows/Enter)" }

/-- The find statics while the match is on row 0 with its `hl` snapshot
saved. -/
def findFsA : FindState :=
  { last_match := 0, direction := 1, saved := some (0, [Hl.normal, Hl.normal, Hl.normal]) }

/-- The find statics after ARROW_DOWN moved the match to row 2. -/
def findFs4 : FindState :=
  { last_match := 2, direction := 1, saved := some (2, List.replicate 6 Hl.normal) }

/-- The editor state after ESC ends the session: the paint on row 2
restored, the status message cleared, and `rowoff` clamped to `cy = 2` by
the refresh that ran before the ESC was processed (the viewport is then
restored by `editorFind` itself). -/
def findE5 : EditorConfig :=
  { findE1 with
    cy := 2, rowoff := 2,
    row := [nRow ['f', 'o', 'o'], nRow ['b', 'a', 'r'], nRow ['f', 'o', 'o', 'b', 'a', 'r']],
    statusmsg := "" }

set_option maxRecDepth 100000
set_option maxHeartbeats 1000000

/-- Each step of the `cx` walk advances `rx` by at least one. -/
theorem cxToRxStep_gt (rx : Nat) (c : Char) : rx < cxToRxStep rx c := by
  simp only [cxToRxStep, ZEN_TAB_STOP]
  split <;> omega

/-- The `cx` walk never decreases the running `rx`. -/
theorem cxToRxGo_ge (chars : List Char) : ∀ cx rx0, rx0 ≤ cxToRxGo chars cx rx0 := by
  induction chars with
  | nil => intro cx rx0; cases cx <;> simp [cxToRxGo]
  | cons c rest ih =>
    intro cx rx0
    cases cx with
    | zero => simp [cxToRxGo]
    | succ j =>
      have h1 := cxToRxStep_gt rx0 c
      have h2 := ih j (cxToRxStep rx0 c)
      simp only [cxToRxGo]
      omega

/-- Running the `rx_to_cx` loop on the value produced by the `cx_to_rx` loop
recovers the logical column, relative to any starting offset pair. -/
theorem rxToCxGo_cxToRxGo (chars : List Char) :
    ∀ cx rx0 c0, cx ≤ chars.length →
      rxToCxGo chars (cxToRxGo chars cx rx0) rx0 c0 = c0 + cx := by
  induction chars with
  | nil =>
    intro cx rx0 c0 h
    have hz : cx = 0 := Nat.le_zero.mp h
    subst hz
    simp [cxToRxGo, rxToCxGo]
  | cons c rest ih =>
    intro cx rx0 c0 h
    cases cx with
    | zero =>
      simp only [cxToRxGo, rxToCxGo]
      rw [if_pos (cxToRxStep_gt rx0 c)]
      omega
    | succ j =>
      have hj : j ≤ rest.length := by simpa using h
      have hge := cxToRxGo_ge rest j (cxToRxStep rx0 c)
      simp only [cxToRxGo, rxToCxGo]
      rw [if_neg (by omega)]
      rw [ih j (cxToRxStep rx0 c) (c0 + 1) hj]
      omega

/-- C5: for every row and every logical column `cx` in `[0, size]`,
`editorRowRxToCx (editorRowCxToRx cx) = cx`; and conversely, for every
rendered column `rx` in the image of `editorRowCxToRx` (i.e. not strictly
inside a tab expansion), `editorRowCxToRx (editorRowRxToCx rx) = rx`. -/
theorem claim_C5 (chars : List Char) :
    (∀ cx, cx ≤ chars.length →
      editorRowRxToCx chars (editorRowCxToRx chars cx) = cx) ∧
    (∀ rx, (∃ cx, cx ≤ chars.length ∧ editorRowCxToRx chars cx = rx) →
      editorRowCxToRx chars (editorRowRxToCx chars rx) = rx) := by
  have main : ∀ cx, cx ≤ chars.length →
      editorRowRxToCx chars (editorRowCxToRx chars cx) = cx := by
    intro cx h
    have := rxToCxGo_cxToRxGo chars cx 0 0 h
    simpa [editorRowRxToCx, editorRowCxToRx] using this
  refine ⟨main, ?_⟩
  rintro rx ⟨cx, hcx, rfl⟩
  rw [main cx hcx]

/-- C5 witness: on the row `a TAB b` with TAB_STOP 4, logical column 2 maps
to rendered column 4 and back. -/
theorem claim_C5_witness :
    editorRowRxToCx ['a', '\t', 'b'] (editorRowCxToRx ['a', '\t', 'b'] 2) = 2 ∧
    editorRowCxToRx ['a', '\t', 'b'] (editorRowRxToCx ['a', '\t', 'b'] 4) = 4 :=
  ⟨(claim_C5 ['a', '\t', 'b']).1 2 (by decide),
   (claim_C5 ['a', '\t', 'b']).2 4 ⟨2, by decide, by decide⟩⟩

/-- The source's scanning loop (which clears `prev_sep` and skips the
separator update whenever it tags a byte NUMBER) computes the same
highlights as the claim's walk (where `prev_sep` always records whether the
previous character was a separator): the two states can only disagree after
a tagged dot, and then the previous highlight being NUMBER makes `prev_sep`
irrelevant. -/
theorem hlGo_eq_specNumberWalk (rest : List Char) :
    ∀ (psC psS : Bool) (ph : Hl), (psC = psS ∨ ph = Hl.number) →
      hlGo true rest psC ph = specNumberWalk rest psS ph := by
  induction rest with
  | nil => intro psC psS ph _; rfl
  | cons c t ih =>
    intro psC psS ph hinv
    rcases hinv with rfl | rfl
    · simp only [hlGo, specNumberWalk, Bool.true_and]
      by_cases hc : ((isdigitC c && (psC || ph == Hl.number)) || (c == '.' && ph == Hl.number)) = true
      · rw [if_pos hc, if_pos hc]
        exact congrArg _ (ih false (is_separator c) Hl.number (Or.inr rfl))
      · rw [if_neg hc, if_neg hc]
        exact congrArg _ (ih (is_separator c) (is_separator c) Hl.normal (Or.inl rfl))
    · simp only [hlGo, specNumberWalk, Bool.true_and,
        show (Hl.number == Hl.number) = true from rfl, Bool.or_true, Bool.and_true]
      by_cases hc : (isdigitC c || c == '.') = true
      · rw [if_pos hc, if_pos hc]
        exact congrArg _ (ih false (is_separator c) Hl.number (Or.inr rfl))
      · rw [if_neg hc, if_neg hc]
        exact congrArg _ (ih (is_separator c) (is_separator c) Hl.normal (Or.inl rfl))

/-- C6: with a rule carrying HIGHLIGHT_NUMBERS active, `editorUpdateSyntax`
computes exactly the left-to-right walk described by the claim (prev_sep
initially true, previous highlight NORMAL at position 0, a byte is NUMBER
iff it is a digit after a separator or a NUMBER byte, or a dot after a
NUMBER byte, and every other byte is NORMAL); on the render `x 12 3.5 a4`
exactly the bytes of `12` and of `3.5` (dot included) are NUMBER and the
`4` of `a4` is NORMAL. -/
theorem claim_C6 :
    (∀ render, editorUpdateSyntax (some cSyntax) render = specNumberHl render) ∧
    editorUpdateSyntax (some cSyntax) "x 12 3.5 a4".toList =
      [Hl.normal, Hl.normal, Hl.number, Hl.number, Hl.normal,
       Hl.number, Hl.number, Hl.number, Hl.normal, Hl.normal, Hl.normal] := by
  constructor
  · intro render
    show hlGo _ render true Hl.normal = specNumberWalk render true Hl.normal
    have hf : decide (cSyntax.flags &&& HL_HIGHLIGHT_NUMBERS ≠ 0) = true := by decide
    rw [hf]
    exact hlGo_eq_specNumberWalk render true true Hl.normal (Or.inl rfl)
  · decide

/-- C8: `editorReadKey` returns any non-escape byte verbatim; after an ESC
byte a timeout on either of the next two reads yields ESC; `ESC [ A B C D`
are the arrows, `ESC [ H`, `ESC O H`, `ESC [ F`, `ESC O F` are HOME and
END, `ESC [ digit ~` maps 1 and 7 to HOME, 3 to DEL, 4 and 8 to END, 5 to
PAGE_UP and 6 to PAGE_DOWN, and EVERY other escape sequence yields ESC:
the last seven conjuncts quantify over all unmapped digits under a tilde,
all non-tilde third bytes after a digit, a timeout or exhausted input
before the third byte of a digit sequence, all unrecognized non-digit
bytes after `[`, all bytes other than H and F after `O`, and all
introducers other than `[` and `O`; together with the mapped cases these
cover every possible input after ESC. -/
theorem claim_C8 :
    (∀ c pending, c ≠ Char.ofNat 27 → editorReadKey c pending = c.toNat) ∧
    (∀ p, editorReadKey (Char.ofNat 27) (none :: p) = 27) ∧
    (editorReadKey (Char.ofNat 27) [] = 27) ∧
    (∀ b p, editorReadKey (Char.ofNat 27) (some b :: none :: p) = 27) ∧
    (∀ b, editorReadKey (Char.ofNat 27) [some b] = 27) ∧
    (∀ p, editorReadKey (Char.ofNat 27) (some '[' :: some 'A' :: p) = ARROW_UP) ∧
    (∀ p, editorReadKey (Char.ofNat 27) (some '[' :: some 'B' :: p) = ARROW_DOWN) ∧
    (∀ p, editorReadKey (Char.ofNat 27) (some '[' :: some 'C' :: p) = ARROW_RIGHT) ∧
    (∀ p, editorReadKey (Char.ofNat 27) (some '[' :: some 'D' :: p) = ARROW_LEFT) ∧
    (∀ p, editorReadKey (Char.ofNat 27) (some '[' :: some 'H' :: p) = HOME_KEY) ∧
    (∀ p, editorReadKey (Char.ofNat 27) (some '[' :: some 'F' :: p) = END_KEY) ∧
    (∀ p, editorReadKey (Char.ofNat 27) (some 'O' :: some 'H' :: p) = HOME_KEY) ∧
    (∀ p, editorReadKey (Char.ofNat 27) (some 'O' :: some 'F' :: p) = END_KEY) ∧
    (∀ p, editorReadKey (Char.ofNat 27) (some '[' :: some '1' :: some '~' :: p) = HOME_KEY) ∧
    (∀ p, editorReadKey (Char.ofNat 27) (some '[' :: some '7' :: some '~' :: p) = HOME_KEY) ∧
    (∀ p, editorReadKey (Char.ofNat 27) (some '[' :: some '3' :: some '~' :: p) = DEL_KEY) ∧
    (∀ p, editorReadKey (Char.ofNat 27) (some '[' :: some '4' :: some '~' :: p) = END_KEY) ∧
    (∀ p, editorReadKey (Char.ofNat 27) (some '[' :: some '8' :: some '~' :: p) = END_KEY) ∧
    (∀ p, editorReadKey (Char.ofNat 27) (some '[' :: some '5' :: some '~' :: p) = PAGE_UP) ∧
    (∀ p, editorReadKey (Char.ofNat 27) (some '[' :: some '6' :: some '~' :: p) = PAGE_DOWN) ∧
    (∀ s1 p, ('0' ≤ s1 ∧ s1 ≤ '9') → s1 ≠ '1' → s1 ≠ '3' → s1 ≠ '4' → s1 ≠ '5' →
      s1 ≠ '6' → s1 ≠ '7' → s1 ≠ '8' →
      editorReadKey (Char.ofNat 27) (some '[' :: some s1 :: some '~' :: p) = 27) ∧
    (∀ s1 s2 p, ('0' ≤ s1 ∧ s1 ≤ '9') → s2 ≠ '~' →
      editorReadKey (Char.ofNat 27) (some '[' :: some s1 :: some s2 :: p) = 27) ∧
    (∀ s1 p, ('0' ≤ s1 ∧ s1 ≤ '9') →
      editorReadKey (Char.ofNat 27) (some '[' :: some s1 :: none :: p) = 27) ∧
    (∀ s1, ('0' ≤ s1 ∧ s1 ≤ '9') →
      editorReadKey (Char.ofNat 27) [some '[', some s1] = 27) ∧
    (∀ s1 p, ¬('0' ≤ s1 ∧ s1 ≤ '9') → s1 ≠ 'A' → s1 ≠ 'B' → s1 ≠ 'C' → s1 ≠ 'D' →
      s1 ≠ 'H' → s1 ≠ 'F' →
      editorReadKey (Char.ofNat 27) (some '[' :: some s1 :: p) = 27) ∧
    (∀ s1 p, s1 ≠ 'H' → s1 ≠ 'F' →
      editorReadKey (Char.ofNat 27) (some 'O' :: some s1 :: p) = 27) ∧
    (∀ s0 s1 p, s0 ≠ '[' → s0 ≠ 'O' →
      editorReadKey (Char.ofNat 27) (some s0 :: some s1 :: p) = 27) := by
  refine ⟨?_, ?_, ?_, ?_, ?_, ?_, ?_, ?_, ?_, ?_, ?_, ?_, ?_, ?_, ?_, ?_, ?_, ?_, ?_, ?_, ?_,
    ?_, ?_, ?_, ?_, ?_, ?_⟩
  · intro c p h; simp [editorReadKey, h]
  · intro p; simp [editorReadKey]
  · simp [editorReadKey]
  · intro b p; simp [editorReadKey]
  · intro b; simp [editorReadKey]
  · intro p; simp [editorReadKey, ARROW_UP]
  · intro p; simp [editorReadKey, ARROW_DOWN]
  · intro p; simp [editorReadKey, ARROW_RIGHT]
  · intro p; simp [editorReadKey, ARROW_LEFT]
  · intro p; simp [editorReadKey, HOME_KEY]
  · intro p; simp [editorReadKey, END_KEY]
  · intro p; simp [editorReadKey, HOME_KEY]
  · intro p; simp [editorReadKey, END_KEY]
  · intro p; simp [editorReadKey, HOME_KEY]
  · intro p; simp [editorReadKey, HOME_KEY]
  · intro p; simp [editorReadKey, DEL_KEY]
  · intro p; simp [editorReadKey, END_KEY]
  · intro p; simp [editorReadKey, END_KEY]
  · intro p; simp [editorReadKey, PAGE_UP]
  · intro p; simp [editorReadKey, PAGE_DOWN]
  · intro s1 p hd h1 h3 h4 h5 h6 h7 h8
    simp [editorReadKey, hd.1, hd.2, h1, h3, h4, h5, h6, h7, h8]
  · intro s1 s2 p hd ht
    simp [editorReadKey, hd.1, hd.2, ht]
  · intro s1 p hd
    simp [editorReadKey, hd.1, hd.2]
  · intro s1 hd
    simp [editorReadKey, hd.1, hd.2]
  · intro s1 p hd hA hB hC hD hH hF
    simp [editorReadKey, hd, hA, hB, hC, hD, hH, hF]
  · intro s1 p hH hF
    simp [editorReadKey, hH, hF]
  · intro s0 s1 p h0 h1
    simp [editorReadKey, h0, h1]

/-- C8 witness: the non-escape byte `a` is returned verbatim. -/
theorem claim_C8_witness : editorReadKey 'a' [] = 97 :=
  claim_C8.1 'a' [] (by decide)

/-- The Ctrl-Q branch of the dispatcher: on a dirty buffer with a positive
counter it warns and decrements, otherwise it exits with status 0. -/
theorem processKeypress_quit (E : EditorConfig) (fs : FindState) (qt : Nat) (o : Oracles) :
    editorProcessKeypress E fs qt (CTRL_KEY 113) o =
      if E.dirty ≠ 0 ∧ qt > 0 then
        KeyResult.cont (editorSetStatusMessage E (quitWarning qt)) fs (qt - 1)
      else KeyResult.exited 0 := by
  have h17 : CTRL_KEY 113 = 17 := rfl
  rw [h17]
  simp only [editorProcessKeypress, h17]
  norm_num

/-- C2 counterexample: from a dirty buffer with the static counter at its
initial value 3, the first two Ctrl-Q presses warn and decrement, but the
third press does NOT exit (it warns a third time); the claim's "the third
press exits" is false. -/
theorem claim_C2_counterexample :
    editorProcessKeypress demoTypedAbc initialFindState ZEN_QUIT_TIMES (CTRL_KEY 113) oracleEmpty
      = KeyResult.cont demoAfterOneQuit initialFindState 2 ∧
    editorProcessKeypress demoAfterOneQuit initialFindState 2 (CTRL_KEY 113) oracleEmpty
      = KeyResult.cont (editorSetStatusMessage demoAfterOneQuit (quitWarning 2)) initialFindState 1 ∧
    (editorProcessKeypress (editorSetStatusMessage demoAfterOneQuit (quitWarning 2))
        initialFindState 1 (CTRL_KEY 113) oracleEmpty).isExited = false :=
  ⟨by decide, by decide, by decide⟩

/-- C2 (amended): starting from any dirty state with the counter at 3, the
first THREE Ctrl-Q presses each display the unsaved-changes warning (with
the counts 3, 2, 1) and decrement the counter without exiting, and the
FOURTH press exits the program cleanly with status 0. -/
theorem claim_C2 (E : EditorConfig) (fs : FindState) (o : Oracles) (h : E.dirty ≠ 0) :
    editorProcessKeypress E fs 3 (CTRL_KEY 113) o
      = KeyResult.cont (editorSetStatusMessage E (quitWarning 3)) fs 2 ∧
    editorProcessKeypress (editorSetStatusMessage E (quitWarning 3)) fs 2 (CTRL_KEY 113) o
      = KeyResult.cont
          (editorSetStatusMessage (editorSetStatusMessage E (quitWarning 3)) (quitWarning 2)) fs 1 ∧
    editorProcessKeypress
        (editorSetStatusMessage (editorSetStatusMessage E (quitWarning 3)) (quitWarning 2))
        fs 1 (CTRL_KEY 113) o
      = KeyResult.cont
          (editorSetStatusMessage
            (editorSetStatusMessage (editorSetStatusMessage E (quitWarning 3)) (quitWarning 2))
            (quitWarning 1)) fs 0 ∧
    editorProcessKeypress
        (editorSetStatusMessage
          (editorSetStatusMessage (editorSetStatusMessage E (quitWarning 3)) (quitWarning 2))
          (quitWarning 1))
        fs 0 (CTRL_KEY 113) o
      = KeyResult.exited 0 := by
  refine ⟨?_, ?_, ?_, ?_⟩
  · rw [processKeypress_quit, if_pos ⟨h, by omega⟩]
  · rw [processKeypress_quit, if_pos ⟨h, by omega⟩]
  · rw [processKeypress_quit, if_pos ⟨h, by omega⟩]
  · rw [processKeypress_quit, if_neg (fun hh => Nat.lt_irrefl 0 hh.2)]

/-- C2 witness: from the concrete dirty state reached by typing `abc`, the
fourth Ctrl-Q press exits with status 0. -/
theorem claim_C2_witness :
    editorProcessKeypress
        (editorSetStatusMessage
          (editorSetStatusMessage (editorSetStatusMessage demoTypedAbc (quitWarning 3))
            (quitWarning 2))
          (quitWarning 1))
        initialFindState 0 (CTRL_KEY 113) oracleEmpty = KeyResult.exited 0 :=
  (claim_C2 demoTypedAbc initialFindState oracleEmpty (by decide)).2.2.2

/-- C3 counterexample: after one Ctrl-Q warning (counter 2), processing the
non-quit keypress ARROW_UP leaves the counter at 2 — it is NOT reset to
`ZEN_QUIT_TIMES = 3` as the claim states, because no dispatch path in
`editorProcessKeypress` writes the counter back. -/
theorem claim_C3_counterexample :
    (editorProcessKeypress demoAfterOneQuit initialFindState 2 ARROW_UP oracleEmpty).quitTimesOf
      = some 2 ∧ (2 : Nat) ≠ ZEN_QUIT_TIMES :=
  ⟨by decide, by decide⟩

/-- C3 (amended): processing any keypress other than CTRL('q') leaves the
static quit-confirmation counter exactly as it was (and never exits); the
counter is never reset to 3, so a later quit attempt on a dirty buffer
needs only the remaining confirmations. -/
theorem claim_C3 (E : EditorConfig) (fs : FindState) (qt : Nat) (c : Nat) (o : Oracles)
    (h : c ≠ CTRL_KEY 113) :
    (editorProcessKeypress E fs qt c o).quitTimesOf = some qt := by
  unfold editorProcessKeypress
  repeat' split
  all_goals first | (exact absurd (by assumption) h) | rfl

/-- C3 witness: a HOME keypress on the empty editor keeps the counter at 3. -/
theorem claim_C3_witness :
    (editorProcessKeypress demoEmpty initialFindState 3 HOME_KEY oracleEmpty).quitTimesOf
      = some 3 :=
  claim_C3 demoEmpty initialFindState 3 HOME_KEY oracleEmpty (by decide)


/-- C4 counterexample: with no syntax rule active (`syn = none`, as after
opening `t.txt`), one invocation of the incremental-find callback on the row
`foo` with query `foo` leaves MATCH — not NORMAL — on all three bytes of the
row's `hl`, so the claimed invariant fails at this reachable state. -/
theorem claim_C4_counterexample :
    demoFindOneRow.syn = none ∧
    (editorFindCallback demoFindOneRow initialFindState ['f', 'o', 'o'] ARROW_DOWN).1.syn = none ∧
    ((editorFindCallback demoFindOneRow initialFindState ['f', 'o', 'o'] ARROW_DOWN).1.row.getD 0
        default).hl = [Hl.matchTag, Hl.matchTag, Hl.matchTag] ∧
    Hl.matchTag ≠ Hl.normal :=
  ⟨by decide, by decide, by decide, by decide⟩

theorem updateRow_hl_normal (row : Erow) :
    ∀ h ∈ (editorUpdateRow none row).hl, h = Hl.normal := by
  intro h hh
  simp only [editorUpdateRow, editorUpdateSyntax] at hh
  exact List.eq_of_mem_replicate hh

theorem allNormalHl_modifyRow (E : EditorConfig) (i : Nat) (f : Erow → Erow)
    (hE : allNormalHl E) (hf : ∀ r, ∀ h ∈ (f r).hl, h = Hl.normal) :
    allNormalHl (E.modifyRow i f) := by
  intro r hr h hh
  rcases List.mem_or_eq_of_mem_set hr with hr' | rfl
  · exact hE r hr' h hh
  · exact hf _ h hh

theorem allNormalHl_modifyRow_updateRow (E : EditorConfig) (i : Nat)
    (g : Erow → Erow) (hsyn : E.syn = none) (hE : allNormalHl E) :
    allNormalHl (E.modifyRow i (fun row => editorUpdateRow E.syn (g row))) := by
  apply allNormalHl_modifyRow E i _ hE
  intro r
  rw [hsyn]
  exact updateRow_hl_normal _

theorem editorInsertRow_syn (E : EditorConfig) (at_ : Nat) (s : List Char) :
    (editorInsertRow E at_ s).syn = E.syn := by
  unfold editorInsertRow
  split <;> rfl

theorem allNormalHl_insertRow (E : EditorConfig) (at_ : Nat) (s : List Char)
    (hsyn : E.syn = none) (hE : allNormalHl E) :
    allNormalHl (editorInsertRow E at_ s) := by
  unfold editorInsertRow
  split
  · exact hE
  · rename_i hgt
    simp only [EditorConfig.numrows] at hgt
    intro r hr h hh
    rcases (List.mem_insertIdx (by omega)).mp hr with rfl | hr'
    · rw [hsyn] at hh
      exact updateRow_hl_normal _ h hh
    · exact hE r hr' h hh

theorem allNormalHl_rowInsertChar (E : EditorConfig) (i at_ : Nat) (c : Char)
    (hsyn : E.syn = none) (hE : allNormalHl E) :
    allNormalHl (editorRowInsertChar E i at_ c) := by
  intro r hr h hh
  exact allNormalHl_modifyRow_updateRow E i
    (fun row => { row with
      chars := row.chars.insertIdx (if at_ > row.size then row.size else at_) c })
    hsyn hE r hr h hh

theorem allNormalHl_rowDelChar (E : EditorConfig) (i at_ : Nat)
    (hsyn : E.syn = none) (hE : allNormalHl E) :
    allNormalHl (editorRowDelChar E i at_) := by
  unfold editorRowDelChar
  split
  · exact hE
  · intro r hr h hh
    exact allNormalHl_modifyRow_updateRow E i
      (fun row => { row with chars := row.chars.eraseIdx at_ })
      hsyn hE r hr h hh

theorem allNormalHl_rowAppendString (E : EditorConfig) (i : Nat) (s : List Char)
    (hsyn : E.syn = none) (hE : allNormalHl E) :
    allNormalHl (editorRowAppendString E i s) := by
  intro r hr h hh
  exact allNormalHl_modifyRow_updateRow E i
    (fun row => { row with chars := row.chars ++ s })
    hsyn hE r hr h hh

theorem allNormalHl_delRow (E : EditorConfig) (at_ : Nat) (hE : allNormalHl E) :
    allNormalHl (editorDelRow E at_) := by
  unfold editorDelRow
  split
  · exact hE
  · intro r hr
    exact hE r (List.eraseIdx_subset _ _ hr)

theorem allNormalHl_insertChar (E : EditorConfig) (c : Char)
    (hsyn : E.syn = none) (hE : allNormalHl E) :
    allNormalHl (editorInsertChar E c) := by
  unfold editorInsertChar
  by_cases hcy : E.cy = E.numrows
  · rw [if_pos hcy]
    intro r hr h hh
    exact allNormalHl_rowInsertChar (editorInsertRow E E.numrows []) _ _ c
      (by rw [editorInsertRow_syn]; exact hsyn)
      (allNormalHl_insertRow E E.numrows [] hsyn hE) r hr h hh
  · rw [if_neg hcy]
    intro r hr h hh
    exact allNormalHl_rowInsertChar E _ _ c hsyn hE r hr h hh

theorem allNormalHl_insertNewline (E : EditorConfig)
    (hsyn : E.syn = none) (hE : allNormalHl E) :
    allNormalHl (editorInsertNewline E) := by
  unfold editorInsertNewline
  by_cases hcx : E.cx = 0
  · rw [if_pos hcx]
    intro r hr h hh
    exact allNormalHl_insertRow E E.cy [] hsyn hE r hr h hh
  · rw [if_neg hcx]
    intro r hr h hh
    have base := allNormalHl_modifyRow_updateRow
      (editorInsertRow E (E.cy + 1) ((E.row.getD E.cy default).chars.drop E.cx))
      (editorInsertRow E (E.cy + 1) ((E.row.getD E.cy default).chars.drop E.cx)).cy
      (fun row => { row with
        chars := row.chars.take
          (editorInsertRow E (E.cy + 1) ((E.row.getD E.cy default).chars.drop E.cx)).cx })
      (by rw [editorInsertRow_syn]; exact hsyn)
      (allNormalHl_insertRow E (E.cy + 1) _ hsyn hE)
    exact base r hr h hh

theorem editorRowAppendString_syn (E : EditorConfig) (i : Nat) (s : List Char) :
    (editorRowAppendString E i s).syn = E.syn := rfl

theorem allNormalHl_delChar (E : EditorConfig)
    (hsyn : E.syn = none) (hE : allNormalHl E) :
    allNormalHl (editorDelChar E) := by
  unfold editorDelChar
  split
  · exact hE
  · split
    · exact hE
    · split
      · intro r hr h hh
        exact allNormalHl_rowDelChar E E.cy (E.cx - 1) hsyn hE r hr h hh
      · intro r hr h hh
        have h1 : allNormalHl ({ E with cx := (E.row.getD (E.cy - 1) default).size } : EditorConfig) :=
          fun r hr => hE r hr
        have h2 := allNormalHl_rowAppendString
          ({ E with cx := (E.row.getD (E.cy - 1) default).size } : EditorConfig)
          (E.cy - 1) (E.row.getD E.cy default).chars hsyn h1
        have h3 := allNormalHl_delRow _ E.cy h2
        exact h3 r hr h hh

/-- C4 (amended): while no syntax rule is active, `editorUpdateSyntax`
always yields all-NORMAL highlights and every editing operation
(`editorInsertChar`, `editorDelChar`, `editorInsertNewline`) preserves
all-NORMAL highlights on every row; the one exception the claim overlooks
is the incremental-find callback, which transiently paints MATCH even with
`syntax == None` and restores the saved highlight at its next invocation —
in particular, when the find session ends with Enter or ESC the painted row
is restored and the saved snapshot cleared. -/
theorem claim_C4 :
    (∀ render, editorUpdateSyntax none render = List.replicate render.length Hl.normal) ∧
    (∀ E : EditorConfig, E.syn = none → allNormalHl E →
      (∀ c, allNormalHl (editorInsertChar E c)) ∧
      allNormalHl (editorDelChar E) ∧
      allNormalHl (editorInsertNewline E)) ∧
    (∀ (E : EditorConfig) (fs : FindState) (q : List Char) (key : Nat) (line : Nat)
        (hlSaved : List Hl), fs.saved = some (line, hlSaved) → (key = 13 ∨ key = 27) →
      editorFindCallback E fs q key
        = (E.modifyRow line (fun r => { r with hl := hlSaved }),
           { last_match := -1, direction := 1, saved := none })) := by
  refine ⟨fun _ => rfl, ?_, ?_⟩
  · intro E hsyn hE
    exact ⟨fun c => allNormalHl_insertChar E c hsyn hE,
      allNormalHl_delChar E hsyn hE, allNormalHl_insertNewline E hsyn hE⟩
  · intro E fs q key line hlSaved hsaved hkey
    rcases hkey with rfl | rfl <;> simp [editorFindCallback, hsaved]

theorem allNormalHl_of_all (E : EditorConfig)
    (hb : E.row.all (fun r => r.hl.all (fun h => decide (h = Hl.normal))) = true) :
    allNormalHl E := by
  intro r hr h hh
  rw [List.all_eq_true] at hb
  have h1 := hb r hr
  rw [List.all_eq_true] at h1
  exact of_decide_eq_true (h1 h hh)

/-- C4 witness: the amended statement applied to the one-row `foo` editor —
inserting `x` keeps all highlights NORMAL, and the ESC-keyed callback with a
saved snapshot restores it and resets the find statics. -/
theorem claim_C4_witness :
    editorUpdateSyntax none ['f', 'o', 'o'] = List.replicate 3 Hl.normal ∧
    allNormalHl (editorInsertChar demoFindOneRow 'x') ∧
    editorFindCallback demoFindOneRow
        { last_match := 0, direction := 1, saved := some (0, [Hl.normal, Hl.normal, Hl.normal]) }
        ['f', 'o', 'o'] 27
      = (demoFindOneRow.modifyRow 0
          (fun r => { r with hl := [Hl.normal, Hl.normal, Hl.normal] }),
         { last_match := -1, direction := 1, saved := none }) :=
  ⟨(claim_C4.1 ['f', 'o', 'o']),
   ((claim_C4.2.1 demoFindOneRow (by decide) (allNormalHl_of_all _ (by decide))).1 'x'),
   (claim_C4.2.2 demoFindOneRow _ ['f', 'o', 'o'] 27 0 [Hl.normal, Hl.normal, Hl.normal] rfl
      (Or.inr rfl))⟩

/-- The serialized buffer is exactly as long as `editorRowsToString`
promises: each row contributes `size + 1` bytes (its characters plus one
newline). -/
theorem editorRowsToString_length (rows : List Erow) :
    (editorRowsToString rows).length = (rows.map (fun r => r.size + 1)).sum := by
  induction rows with
  | nil => rfl
  | cons r t ih =>
    simp [editorRowsToString, Erow.size] at ih ⊢
    omega

/-- C1: `editorSave` serializes the buffer as each row's chars followed by
one newline (trailing newline included), writes exactly that many bytes,
and on full success clears `dirty` and shows `<len> bytes written to disk`;
in particular, from an empty buffer, typing `abc` and saving under filename
`f` writes the 4-byte file `abc\n`, shows `4 bytes written to disk`, and
leaves `dirty = 0`. -/
theorem claim_C1 :
    (∀ rows, (editorRowsToString rows).length = (rows.map (fun r => r.size + 1)).sum) ∧
    (∀ (E : EditorConfig) (fs : FindState) (pk : List Nat) (fn : String),
      E.filename = some fn →
      editorSave E fs pk SaveFsOutcome.ok
        = ((editorSetStatusMessage { E with dirty := 0 }
              (toString (editorRowsToString E.row).length ++ " bytes written to disk"), fs),
           some (editorRowsToString E.row))) ∧
    (demoSavedAbc.2 = some ['a', 'b', 'c', '\n'] ∧
     (demoSavedAbc.2.getD []).length = 4 ∧
     demoSavedAbc.1.1.statusmsg = "4 bytes written to disk" ∧
     demoSavedAbc.1.1.dirty = 0 ∧
     demoSavedAbc.1.1.filename = some "f") := by
  refine ⟨editorRowsToString_length, ?_, by decide, by decide, by decide, by decide, by decide⟩
  intro E fs pk fn hfn
  have hstep : editorSave E fs pk SaveFsOutcome.ok = saveToDisk E fs SaveFsOutcome.ok := by
    unfold editorSave
    rw [hfn]
  rw [hstep]
  rfl

/-- C1 witness: the success branch applied to the `abc` buffer with the
filename already set. -/
theorem claim_C1_witness :
    editorSave demoAbcNamed initialFindState [] SaveFsOutcome.ok
      = ((editorSetStatusMessage { demoAbcNamed with dirty := 0 }
            (toString (editorRowsToString demoAbcNamed.row).length ++ " bytes written to disk"),
          initialFindState),
         some (editorRowsToString demoAbcNamed.row)) :=
  claim_C1.2.1 demoAbcNamed initialFindState [] "f" rfl

/-- First iteration of the `demoFindFile` find session: typing `f`. -/
theorem findStep1 (ks : List Nat) :
    editorPrompt "Search: " " (Use ESC/Arrows/Enter)" (some editorFindCallback)
        demoFindFile initialFindState [] (102 :: ks)
      = editorPrompt "Search: " " (Use ESC/Arrows/Enter)" (some editorFindCallback)
        findE1 findFsA ['f'] ks := rfl

/-- Second iteration: typing `o`. -/
theorem findStep2 (ks : List Nat) :
    editorPrompt "Search: " " (Use ESC/Arrows/Enter)" (some editorFindCallback)
        findE1 findFsA ['f'] (111 :: ks)
      = editorPrompt "Search: " " (Use ESC/Arrows/Enter)" (some editorFindCallback)
        findE2 findFsA ['f', 'o'] ks := rfl

/-- Third iteration: typing the second `o`. -/
theorem findStep3 (ks : List Nat) :
    editorPrompt "Search: " " (Use ESC/Arrows/Enter)" (some editorFindCallback)
        findE2 findFsA ['f', 'o'] (111 :: ks)
      = editorPrompt "Search: " " (Use ESC/Arrows/Enter)" (some editorFindCallback)
        findE3 findFsA ['f', 'o', 'o'] ks := rfl

/-- Fourth iteration: ARROW_DOWN moves the match forward to row 2. -/
theorem findStep4 (ks : List Nat) :
    editorPrompt "Search: " " (Use ESC/Arrows/Enter)" (some editorFindCallback)
        findE3 findFsA ['f', 'o', 'o'] (ARROW_DOWN :: ks)
      = editorPrompt "Search: " " (Use ESC/Arrows/Enter)" (some editorFindCallback)
        findE4 findFs4 ['f', 'o', 'o'] ks := rfl

/-- Fifth iteration: ESC cancels the prompt, restoring the painted row and
resetting the find statics. -/
theorem findStep5 :
    editorPrompt "Search: " " (Use ESC/Arrows/Enter)" (some editorFindCallback)
        findE4 findFs4 ['f', 'o', 'o'] [27]
      = (findE5, { last_match := -1, direction := 1, saved := none }, PromptEnd.cancelled) := by
  decide

/-- C9: in a find session on rows `foo`, `bar`, `foobar`, after typing
`foo` (match on row 0) the ARROW_DOWN key sets the direction forward and
moves the cursor to row 2, the next row whose render contains the query
(skipping `bar` and recording `last_match = 2`); pressing ESC cancels the
prompt and `editorFind` restores `cx`, `cy`, `coloff` and `rowoff` to the
values saved on entry (all 0 here). -/
theorem claim_C9 :
    editorFind demoFindFile initialFindState [102, 111, 111, ARROW_DOWN] = (findE4, findFs4) ∧
    findE4.cy = 2 ∧ findFs4.direction = 1 ∧ findFs4.last_match = 2 ∧
    editorFind demoFindFile initialFindState [102, 111, 111, ARROW_DOWN, 27]
      = ({ findE5 with cx := demoFindFile.cx,
                       cy := demoFindFile.cy,
                       coloff := demoFindFile.coloff,
                       rowoff := demoFindFile.rowoff },
         { last_match := -1, direction := 1, saved := none }) ∧
    demoFindFile.cx = 0 ∧ demoFindFile.cy = 0 ∧ demoFindFile.coloff = 0 ∧
    demoFindFile.rowoff = 0 := by
  have h1 : editorPrompt "Search: " " (Use ESC/Arrows/Enter)" (some editorFindCallback)
      demoFindFile initialFindState [] [102, 111, 111, ARROW_DOWN]
      = (findE4, findFs4, PromptEnd.pending ['f', 'o', 'o']) := by
    rw [findStep1, findStep2, findStep3, findStep4]
    rfl
  have h2 : editorPrompt "Search: " " (Use ESC/Arrows/Enter)" (some editorFindCallback)
      demoFindFile initialFindState [] [102, 111, 111, ARROW_DOWN, 27]
      = (findE5, { last_match := -1, direction := 1, saved := none }, PromptEnd.cancelled) := by
    rw [findStep1, findStep2, findStep3, findStep4, findStep5]
  refine ⟨?_, rfl, rfl, rfl, ?_, rfl, rfl, rfl, rfl⟩
  · unfold editorFind
    rw [h1]
  · unfold editorFind
    rw [h2]


/-- `editorScroll` only changes `rx`, `rowoff` and `coloff`. -/
theorem editorScroll_fields (E : EditorConfig) :
    (editorScroll E).row = E.row ∧ (editorScroll E).dirty = E.dirty ∧
    (editorScroll E).filename = E.filename := by
  unfold editorScroll
  dsimp only
  repeat' split
  all_goals exact ⟨rfl, rfl, rfl⟩

/-- A prompt run with no callback (the save-as prompt) never touches the
row store, the dirty flag, the filename, or the find statics: each
iteration only updates the status message and the scroll fields. -/
theorem editorPrompt_none_inv (pre suf : String) (keys : List Nat) :
    ∀ (E : EditorConfig) (fs : FindState) (buf : List Char),
      (editorPrompt pre suf none E fs buf keys).1.row = E.row ∧
      (editorPrompt pre suf none E fs buf keys).1.dirty = E.dirty ∧
      (editorPrompt pre suf none E fs buf keys).1.filename = E.filename ∧
      (editorPrompt pre suf none E fs buf keys).2.1 = fs := by
  induction keys with
  | nil => intro E fs buf; exact ⟨rfl, rfl, rfl, rfl⟩
  | cons k ks ih =>
    intro E fs buf
    simp only [editorPrompt]
    generalize hE1 : editorScroll (editorSetStatusMessage E (pre ++ String.mk buf ++ suf)) = E1
    have hs := editorScroll_fields (editorSetStatusMessage E (pre ++ String.mk buf ++ suf))
    rw [hE1] at hs
    split_ifs <;>
      first
        | exact ⟨(ih _ _ _).1.trans hs.1, (ih _ _ _).2.1.trans hs.2.1,
            (ih _ _ _).2.2.1.trans hs.2.2, (ih _ _ _).2.2.2⟩
        | exact ⟨hs.1, hs.2.1, hs.2.2, rfl⟩

/-- `editorSelectSyntaxHighlight` changes at most the syntax rule and the
rows' highlight bytes: `dirty`, every row's `chars` and the status message
survive. -/
theorem editorSelectSyntaxHighlight_fields (E : EditorConfig) :
    (editorSelectSyntaxHighlight E).dirty = E.dirty ∧
    (editorSelectSyntaxHighlight E).row.map Erow.chars = E.row.map Erow.chars ∧
    (editorSelectSyntaxHighlight E).statusmsg = E.statusmsg := by
  unfold editorSelectSyntaxHighlight
  dsimp only
  repeat' split
  all_goals refine ⟨rfl, ?_, rfl⟩
  all_goals simp [List.map_map]

/-- C7: when the save-as prompt is cancelled, `editorSave` reports
`Save aborted` and leaves `dirty` and the rows untouched; when the
filesystem fails at any of the three points (open, truncate, write), it
reports `Can't save! I/O error: <reason>` and leaves the editor untouched
apart from that message; and when the prompt was committed but the write
then fails, `dirty` and every row's text are still exactly as before the
save.  In every failure case the written-file component is `none`: `dirty`
is cleared only by the fully successful branch. -/
theorem claim_C7 :
    (∀ (E : EditorConfig) (fs : FindState) (keys : List Nat) (fsr : SaveFsOutcome)
        (E' : EditorConfig) (fs' : FindState),
      E.filename = none →
      editorPrompt "Save as: " " (ESC to cancel)" none E fs [] keys
        = (E', fs', PromptEnd.cancelled) →
      editorSave E fs keys fsr = ((editorSetStatusMessage E' "Save aborted", fs'), none) ∧
      E'.row = E.row ∧ E'.dirty = E.dirty) ∧
    (∀ (E : EditorConfig) (fs : FindState) (keys : List Nat) (fn err : String),
      E.filename = some fn →
      editorSave E fs keys (SaveFsOutcome.openFail err)
        = ((editorSetStatusMessage E ("Can't save! I/O error: " ++ err), fs), none) ∧
      editorSave E fs keys (SaveFsOutcome.truncFail err)
        = ((editorSetStatusMessage E ("Can't save! I/O error: " ++ err), fs), none) ∧
      editorSave E fs keys (SaveFsOutcome.writeFail err)
        = ((editorSetStatusMessage E ("Can't save! I/O error: " ++ err), fs), none)) ∧
    (∀ (E : EditorConfig) (fs : FindState) (keys : List Nat) (err : String)
        (E' : EditorConfig) (fs' : FindState) (fnBuf : List Char),
      E.filename = none →
      editorPrompt "Save as: " " (ESC to cancel)" none E fs [] keys
        = (E', fs', PromptEnd.committed fnBuf) →
      editorSave E fs keys (SaveFsOutcome.writeFail err)
        = ((editorSetStatusMessage
              (editorSelectSyntaxHighlight { E' with filename := some (String.mk fnBuf) })
              ("Can't save! I/O error: " ++ err), fs'), none) ∧
      (editorSelectSyntaxHighlight { E' with filename := some (String.mk fnBuf) }).dirty
        = E.dirty ∧
      (editorSelectSyntaxHighlight { E' with filename := some (String.mk fnBuf) }).row.map
          Erow.chars = E.row.map Erow.chars) := by
  refine ⟨?_, ?_, ?_⟩
  · intro E fs keys fsr E' fs' hfn hp
    have hinv := editorPrompt_none_inv "Save as: " " (ESC to cancel)" keys E fs []
    rw [hp] at hinv
    refine ⟨?_, hinv.1, hinv.2.1⟩
    unfold editorSave
    rw [hfn, hp]
  · intro E fs keys fn err hfn
    have h1 : ∀ r, editorSave E fs keys r = saveToDisk E fs r := by
      intro r
      unfold editorSave
      rw [hfn]
    exact ⟨by rw [h1]; rfl, by rw [h1]; rfl, by rw [h1]; rfl⟩
  · intro E fs keys err E' fs' fnBuf hfn hp
    have hinv := editorPrompt_none_inv "Save as: " " (ESC to cancel)" keys E fs []
    rw [hp] at hinv
    have hsel := editorSelectSyntaxHighlight_fields
      ({ E' with filename := some (String.mk fnBuf) } : EditorConfig)
    refine ⟨?_, ?_, ?_⟩
    · unfold editorSave
      rw [hfn, hp]
      rfl
    · rw [hsel.1]
      exact hinv.2.1
    · rw [hsel.2.1]
      exact congrArg (List.map Erow.chars) hinv.1

/-- C7 witness: cancelling the save-as prompt of the dirty `abc` buffer
with ESC aborts the save, and an `open` failure on the named buffer reports
the I/O error. -/
theorem claim_C7_witness :
    (editorSave demoTypedAbc initialFindState [27] SaveFsOutcome.ok
      = ((editorSetStatusMessage
            (editorPrompt "Save as: " " (ESC to cancel)" none demoTypedAbc initialFindState []
              [27]).1 "Save aborted",
          (editorPrompt "Save as: " " (ESC to cancel)" none demoTypedAbc initialFindState []
            [27]).2.1),
         none)) ∧
    editorSave demoAbcNamed initialFindState [] (SaveFsOutcome.openFail "EACCES")
      = ((editorSetStatusMessage demoAbcNamed ("Can't save! I/O error: " ++ "EACCES"),
          initialFindState), none) :=
  ⟨(claim_C7.1 demoTypedAbc initialFindState [27] SaveFsOutcome.ok _ _ rfl (by decide)).1,
   (claim_C7.2.1 demoAbcNamed initialFindState [] "f" "EACCES" rfl).1⟩


/-- The rx-to-cx walk at target rx 0 returns cx 0: the very first step of
`rxToCxGo` already exceeds 0 because `cxToRxStep` strictly increases rx. -/
theorem rxToCx_zero (chars : List Char) : editorRowRxToCx chars 0 = 0 := by
  cases chars with
  | nil => rfl
  | cons c rest =>
    simp only [editorRowRxToCx, rxToCxGo]
    rw [if_pos (cxToRxStep_gt 0 c)]

/-- `strstr` with an empty needle reports a hit at offset 0 of any haystack,
mirroring C `strstr(hay, "")` returning `hay` itself. -/
theorem strstrIdx_nil (hay : List Char) : strstrIdx hay [] = some 0 := by
  have h : List.isPrefixOf ([] : List Char) hay = true := by cases hay <;> rfl
  unfold strstrIdx
  rw [if_pos h]

/-- With an empty query, the first iteration of the find loop starting from
`current = -1`, `direction = 1` on a non-empty buffer matches row 0 at
offset 0: it sets `cy = 0`, `cx = 0` and `rowoff = numrows`. -/
theorem findLoop_empty_first (E : EditorConfig) (fs : FindState) (fuel : Nat)
    (hnum : E.numrows ≠ 0) :
    (findLoop E fs [] (fuel + 1) (-1) 1).1.cy = 0 ∧
    (findLoop E fs [] (fuel + 1) (-1) 1).1.cx = 0 ∧
    (findLoop E fs [] (fuel + 1) (-1) 1).1.rowoff = E.numrows := by
  have h0 : (-1 : Int) + 1 = 0 := by norm_num
  have hne1 : ¬((0 : Int) = -1) := by norm_num
  have hne2 : ¬((0 : Int) = (E.numrows : Int)) := by
    intro h
    exact hnum (by exact_mod_cast h.symm)
  simp only [findLoop, h0, if_neg hne1, if_neg hne2, strstrIdx_nil]
  exact ⟨rfl, rxToCx_zero _, rfl⟩

/-- For a non-Enter, non-ESC key with no saved row, `editorFindCallback`
with `last_match = -1` reduces to the search loop from `current = -1`,
`direction = 1` (every arrow branch collapses because the no-previous-match
guard forces the direction forward). -/
theorem findCallback_reduce_none (E : EditorConfig) (dir : Int) (key : Nat)
    (hkey : ¬(key = 13 ∨ key = 27)) (q : List Char) :
    editorFindCallback E ⟨-1, dir, none⟩ q key =
      findLoop E ⟨-1, 1, none⟩ q E.numrows (-1) 1 := by
  unfold editorFindCallback
  rw [if_neg hkey]
  dsimp only
  split_ifs <;> first | rfl | exact absurd rfl (by assumption)

/-- Same reduction as `findCallback_reduce_none` when a saved highlight line
is pending: the callback first restores that row's `hl`, then runs the same
forward search loop. -/
theorem findCallback_reduce_some (E : EditorConfig) (dir : Int) (key : Nat)
    (line : Nat) (sav : List Hl)
    (hkey : ¬(key = 13 ∨ key = 27)) (q : List Char) :
    editorFindCallback E ⟨-1, dir, some (line, sav)⟩ q key =
      findLoop (E.modifyRow line (fun r => { r with hl := sav })) ⟨-1, 1, none⟩ q
        (E.modifyRow line (fun r => { r with hl := sav })).numrows (-1) 1 := by
  unfold editorFindCallback
  rw [if_neg hkey]
  dsimp only
  split_ifs <;> first | rfl | exact absurd rfl (by assumption)

/-- C10: on a buffer with at least one row, running the find callback with an
empty query, no previous match (`last_match = -1`) and any key other than
Enter (13) or ESC (27) always lands on row 0: the empty string is found at
byte offset 0 of the first scanned row, so the callback sets `cy = 0`,
`cx = 0` and `rowoff = numrows` on the very first keystroke of the session. -/
theorem claim_C10 (E : EditorConfig) (fs : FindState) (key : Nat)
    (hrows : E.row ≠ []) (hlm : fs.last_match = -1) (h13 : key ≠ 13) (h27 : key ≠ 27) :
    (editorFindCallback E fs [] key).1.cy = 0 ∧
    (editorFindCallback E fs [] key).1.cx = 0 ∧
    (editorFindCallback E fs [] key).1.rowoff = E.numrows := by
  obtain ⟨lm, dir, sv⟩ := fs
  replace hlm : lm = -1 := hlm
  subst hlm
  have hkey : ¬(key = 13 ∨ key = 27) := by
    rintro (rfl | rfl)
    · exact h13 rfl
    · exact h27 rfl
  have hnum : E.numrows ≠ 0 := fun h => hrows (List.length_eq_zero.mp h)
  rcases sv with _ | ⟨line, sav⟩
  · rw [findCallback_reduce_none E dir key hkey]
    obtain ⟨n, hn⟩ : ∃ n, E.numrows = n + 1 := ⟨E.numrows - 1, by omega⟩
    rw [hn]
    have h := findLoop_empty_first E ⟨-1, 1, none⟩ n hnum
    rw [hn] at h
    exact h
  · rw [findCallback_reduce_some E dir key line sav hkey]
    have hnum1 : (E.modifyRow line (fun r => { r with hl := sav })).numrows = E.numrows := by
      simp [EditorConfig.modifyRow, EditorConfig.numrows]
    rw [← hnum1]
    obtain ⟨n, hn⟩ : ∃ n, (E.modifyRow line (fun r => { r with hl := sav })).numrows = n + 1 :=
      ⟨(E.modifyRow line (fun r => { r with hl := sav })).numrows - 1, by rw [hnum1]; omega⟩
    rw [hn]
    have h := findLoop_empty_first (E.modifyRow line (fun r => { r with hl := sav })) ⟨-1, 1, none⟩ n
      (by rw [hnum1]; exact hnum)
    rw [hn] at h
    exact h

/-- Witness for C10: in the three-row demo file, pressing ARROW_DOWN at the
start of a find session (empty query, fresh find state) jumps the cursor to
row 0, column 0, with `rowoff` pushed to `numrows`. -/
theorem claim_C10_witness :
    (editorFindCallback demoFindFile initialFindState [] ARROW_DOWN).1.cy = 0 ∧
    (editorFindCallback demoFindFile initialFindState [] ARROW_DOWN).1.cx = 0 ∧
    (editorFindCallback demoFindFile initialFindState [] ARROW_DOWN).1.rowoff
      = demoFindFile.numrows :=
  claim_C10 demoFindFile initialFindState ARROW_DOWN (by decide) rfl (by decide) (by decide)


end Zen
